import Mathlib

/-!
Verification of the vscode-actionlint core against its specification.

The development shallowly embeds the extension's pure core logic:

* `src/diagnostics.ts` — the position mapper (`toDiagnostics`,
  `resolveScriptRange`, severity resolution, the shellcheck / pyflakes
  message regexes);
* `src/runner.ts` — the subprocess outcome classification of
  `runActionlint` (argument construction, cancellation, error taxonomy);
* `src/config.ts` — `getConfig` with its trusted-scope resolution;
* the linter's result handling (`lintDocument`) and the
  `CancellableTask` staleness discipline from `src/cancellable-task.ts`.

JavaScript strings are modelled as Lean `String` (all inputs of interest
are ASCII, where UTF-16 indexing and code-point indexing agree), numbers
from the tool's JSON as `Int`, `undefined` / absent values as `Option`.
All definitions are structural recursions so that concrete runs evaluate
by `decide` / `rfl`.
-/

set_option autoImplicit false

namespace Actionlint

/-- Whitespace for the JavaScript `trim` family and the regex class `\s`,
restricted to the ASCII range. -/
def jsIsWs (c : Char) : Bool :=
  c = ' ' || c = '\t' || c = '\n' || c = '\r' || c = '\x0b' || c = '\x0c'

/-- JavaScript `String.prototype.trimStart`. -/
def jsTrimStart (s : String) : String :=
  ⟨s.data.dropWhile jsIsWs⟩

/-- JavaScript `String.prototype.trimEnd`. -/
def jsTrimEnd (s : String) : String :=
  ⟨(s.data.reverse.dropWhile jsIsWs).reverse⟩

/-- JavaScript `String.prototype.trim`. -/
def jsTrim (s : String) : String :=
  jsTrimEnd (jsTrimStart s)

/-- Helper for `jsIndexOf`: index of the first occurrence of `pat` in the
remaining character list, offset by `i`. -/
def jsIndexOfAux (pat : List Char) : List Char → Nat → Option Nat
  | [], i => if pat.isEmpty then some i else none
  | c :: rest, i =>
    if pat.isPrefixOf (c :: rest) then some i else jsIndexOfAux pat rest (i + 1)

/-- JavaScript `String.prototype.indexOf`, with `-1` rendered as `none`. -/
def jsIndexOf (s pat : String) : Option Nat :=
  jsIndexOfAux pat.data s.data 0

/-- JavaScript `String.prototype.includes`. -/
def jsIncludes (s pat : String) : Bool :=
  (jsIndexOf s pat).isSome

/-- Helper for `splitLines`, on character lists. -/
def splitLinesL : List Char → List (List Char)
  | [] => [[]]
  | c :: rest =>
    let r := splitLinesL rest
    if c = '\n' then [] :: r
    else
      match r with
      | [] => [[c]]
      | l :: ls => (c :: l) :: ls

/-- JavaScript `text.split("\n")`. -/
def splitLines (s : String) : List String :=
  (splitLinesL s.data).map (fun l => ⟨l⟩)

/-- Maximal leading run of ASCII digits of a character list, with the rest. -/
def takeDigitsL : List Char → List Char × List Char
  | [] => ([], [])
  | c :: rest =>
    if c.isDigit then
      let p := takeDigitsL rest
      (c :: p.1, p.2)
    else ([], c :: rest)

/-- Numeric value of a digit string (the effect of `parseInt` on a
capture group known to consist of decimal digits). -/
def digitsToNat (s : String) : Nat :=
  s.data.foldl (fun n c => n * 10 + (c.toNat - '0'.toNat)) 0

/-- A word character for the regex boundary assertion `\b`
(`[A-Za-z0-9_]`). -/
def isWordChar (c : Char) : Bool :=
  ('A' ≤ c && c ≤ 'Z') || ('a' ≤ c && c ≤ 'z') || ('0' ≤ c && c ≤ '9') || c = '_'

/-- Strip a literal from the front of a character list, or fail. -/
def stripLit : List Char → List Char → Option (List Char)
  | [], s => some s
  | _ :: _, [] => none
  | p :: ps, c :: cs => if p = c then stripLit ps cs else none

/-- Capture groups of the shellcheck message regex
`\b(SC\d+):(error|warning|info|style):(\d+):(\d+):\s*(.*)` from
`src/diagnostics.ts`.  The line and column groups are kept as digit
strings, as a regex engine would. -/
structure ShellcheckGroups where
  code : String
  sev : String
  lineDigits : String
  colDigits : String
  desc : String
deriving Repr, DecidableEq

/-- The severity alternation `(error|warning|info|style)` of the
shellcheck regex, tried left to right. -/
def matchSeverityAlt (s : List Char) : Option (String × List Char) :=
  match stripLit "error".data s with
  | some r => some ("error", r)
  | none =>
    match stripLit "warning".data s with
    | some r => some ("warning", r)
    | none =>
      match stripLit "info".data s with
      | some r => some ("info", r)
      | none =>
        match stripLit "style".data s with
        | some r => some ("style", r)
        | none => none

/-- Attempt to match the shellcheck regex body at the current position. -/
def matchShellcheckAt (s : List Char) : Option ShellcheckGroups := do
  let r ← stripLit "SC".data s
  let d := takeDigitsL r
  if d.1 = [] then none else
  let r ← stripLit [':'] d.2
  let sv ← matchSeverityAlt r
  let r ← stripLit [':'] sv.2
  let l := takeDigitsL r
  if l.1 = [] then none else
  let r ← stripLit [':'] l.2
  let c := takeDigitsL r
  if c.1 = [] then none else
  let r ← stripLit [':'] c.2
  let r := r.dropWhile jsIsWs
  let desc := r.takeWhile (fun ch => ch ≠ '\n')
  some ⟨"SC" ++ ⟨d.1⟩, sv.1, ⟨l.1⟩, ⟨c.1⟩, ⟨desc⟩⟩

/-- Scan for the leftmost position where the shellcheck regex matches,
honouring the word-boundary assertion before the `SC` code. -/
def execShellcheckAux : Option Char → List Char → Option ShellcheckGroups
  | _, [] => none
  | prev, c :: rest =>
    let boundaryOk :=
      match prev with
      | none => true
      | some p => !isWordChar p
    if boundaryOk then
      match matchShellcheckAt (c :: rest) with
      | some g => some g
      | none => execShellcheckAux (some c) rest
    else execShellcheckAux (some c) rest

/-- `shellcheckRe.exec` from `src/diagnostics.ts`. -/
def execShellcheck (s : String) : Option ShellcheckGroups :=
  execShellcheckAux none s.data

/-- Capture groups of the pyflakes message regex
`^pyflakes reported issue in this script: (\d+):(\d+): (.*)`. -/
structure PyflakesGroups where
  lineDigits : String
  colDigits : String
  desc : String
deriving Repr, DecidableEq

/-- `pyflakesRe.exec` from `src/diagnostics.ts` (anchored at the start). -/
def execPyflakes (s : String) : Option PyflakesGroups := do
  let r ← stripLit "pyflakes reported issue in this script: ".data s.data
  let l := takeDigitsL r
  if l.1 = [] then none else
  let r ← stripLit [':'] l.2
  let c := takeDigitsL r
  if c.1 = [] then none else
  let r ← stripLit [':', ' '] c.2
  let desc := r.takeWhile (fun ch => ch ≠ '\n')
  some ⟨⟨l.1⟩, ⟨c.1⟩, ⟨desc⟩⟩

/-- A single error from actionlint JSON output, after the unchecked cast
in `runActionlint` (`src/types.ts`, `ActionlintError`).  Numeric fields
are `Int` since nothing validates the wire values. -/
structure ActionlintError where
  message : String
  filepath : String
  line : Int
  column : Int
  end_column : Int
  kind : String
  snippet : String
deriving Repr, DecidableEq

/-- `vscode.DiagnosticSeverity`. -/
inductive Severity where
  | error
  | warning
  | information
  | hint
deriving Repr, DecidableEq

/-- `vscode.Range` restricted to what the extension produces: 0-based
line/character pairs, end exclusive. -/
structure Range where
  startLine : Int
  startChar : Int
  endLine : Int
  endChar : Int
deriving Repr, DecidableEq

/-- `vscode.Diagnostic` as populated by `toDiagnostics`. -/
structure Diagnostic where
  range : Range
  message : String
  severity : Severity
  source : String
  code : String
deriving Repr, DecidableEq

/-- Lookup in a JavaScript plain-object record, modelled as an
association list. -/
def recordGet (m : List (String × String)) (k : String) : Option String :=
  (m.find? (fun p => p.1 == k)).map (fun p => p.2)

/-- `shellcheckSeverityMap` from `src/diagnostics.ts`. -/
def shellcheckSeverityMap (s : String) : Option Severity :=
  if s = "error" then some .error
  else if s = "warning" then some .warning
  else if s = "info" then some .information
  else if s = "style" then some .hint
  else none

/-- `userSeverityMap` from `src/diagnostics.ts`. -/
def userSeverityMap (s : String) : Option Severity :=
  if s = "error" then some .error
  else if s = "warning" then some .warning
  else if s = "information" then some .information
  else if s = "hint" then some .hint
  else none

/-- `kindSeverityMap` from `src/diagnostics.ts`. -/
def kindSeverityMap (k : String) : Option Severity :=
  if k = "syntax-check" then some .error
  else if k = "expression" then some .error
  else if k = "action" then some .error
  else if k = "workflow-call" then some .error
  else if k = "shell-name" then some .error
  else if k = "matrix" then some .error
  else if k = "job-needs" then some .error
  else if k = "events" then some .warning
  else if k = "runner-label" then some .warning
  else if k = "permissions" then some .warning
  else if k = "credentials" then some .warning
  else if k = "deprecated-commands" then some .warning
  else if k = "id" then some .warning
  else if k = "glob" then some .warning
  else if k = "pyflakes" then some .warning
  else if k = "if-cond" then some .information
  else if k = "env-var" then some .information
  else none

/-- `toSeverity` from `src/diagnostics.ts`: user override, then the
shellcheck message regex, then the kind table, then `Error`. -/
def toSeverity (kind message : String) (overrides : List (String × String)) : Severity :=
  match (recordGet overrides kind).bind userSeverityMap with
  | some sev => sev
  | none =>
    if kind = "shellcheck" then
      match execShellcheck message with
      | some g => (shellcheckSeverityMap g.sev).getD .error
      | none => (kindSeverityMap kind).getD .error
    else (kindSeverityMap kind).getD .error

/-- Parsed script-relative position (1-based), `ScriptPosition` in
`src/diagnostics.ts`. -/
structure ScriptPosition where
  line : Int
  col : Int
deriving Repr, DecidableEq

/-- The `while` loop in `resolveScriptRange` searching for the first
line at or after the given index whose trimmed content is non-empty. -/
def firstNonBlankAux : List String → Nat → Option Nat
  | [], _ => none
  | l :: rest, i => if jsTrim l = "" then firstNonBlankAux rest (i + 1) else some i

/-- Index of the first non-blank line at or after `start`. -/
def firstNonBlankFrom (lines : List String) (start : Nat) : Option Nat :=
  firstNonBlankAux (lines.drop start) start

/-- Leading-whitespace width of a line
(`refLine.length - refLine.trimStart().length`). -/
def indentOf (s : String) : Int :=
  (s.data.length : Int) - ((jsTrimStart s).data.length : Int)

/-- `resolveScriptRange` from `src/diagnostics.ts`: map a script-relative
1-based position to a document range, given the 0-based document line of
the `run:` keyword.  `none` corresponds to the `undefined` fallbacks. -/
def resolveScriptRange (runLine : Int) (scriptPos : ScriptPosition)
    (lines : List String) : Option Range :=
  if runLine < 0 ∨ (lines.length : Int) ≤ runLine then none
  else
    let runText := lines.getD runLine.toNat ""
    match jsIndexOf runText "run:" with
    | none => none
    | some runIdx =>
      let afterColon : String := ⟨runText.data.drop (runIdx + 4)⟩
      let value := jsTrimStart afterColon
      if value.data.length = 0 then none
      else
        let valueOffset := runIdx + 4 + (afterColon.data.length - value.data.length)
        if value.data.head? = some '|' ∨ value.data.head? = some '>' then
          let bodyStart := runLine.toNat + 1
          match firstNonBlankFrom lines bodyStart with
          | none => none
          | some indentRef =>
            let indent := indentOf (lines.getD indentRef "")
            let docLine : Int := (bodyStart : Int) + (scriptPos.line - 1)
            if docLine < 0 ∨ (lines.length : Int) ≤ docLine then none
            else
              let docCol : Int := indent + (scriptPos.col - 1)
              if docCol < 0 then none
              else
                let endCol : Int :=
                  max (docCol + 1) ((jsTrimEnd (lines.getD docLine.toNat "")).data.length : Int)
                some ⟨docLine, docCol, docLine, endCol⟩
        else
          if scriptPos.line ≠ 1 then none
          else
            let quoteOffset : Nat :=
              if value.data.head? = some '"' ∨ value.data.head? = some (Char.ofNat 39)
              then 1 else 0
            let docCol : Int := (valueOffset : Int) + (quoteOffset : Int) + (scriptPos.col - 1)
            if docCol < 0 ∨ (runText.data.length : Int) ≤ docCol then none
            else
              let endCol : Int := max (docCol + 1) ((jsTrimEnd runText).data.length : Int)
              some ⟨runLine, docCol, runLine, endCol⟩

/-- The range computed by `toDiagnostics` before any embedded-script
resolution (lines 229-238 of `src/diagnostics.ts`): 1-based to 0-based
shift with clamping, and `end_column` used as the exclusive end when it
exceeds the start column, else a one-character range. -/
def defaultRange (err : ActionlintError) : Range :=
  let line : Int := max 0 (err.line - 1)
  let col : Int := max 0 (err.column - 1)
  let endCol : Int := max (col + 1) (if err.column < err.end_column then err.end_column else col + 1)
  ⟨line, col, line, endCol⟩

/-- The guarded call of `resolveScriptRange` shared by the shellcheck and
pyflakes branches of `toDiagnostics`: only attempted when document text
was supplied and the parsed script line/column are at least 1. -/
def scriptRangeFor (docLines : Option (List String)) (runLine : Int)
    (lineDigits colDigits : String) : Option Range :=
  match docLines with
  | none => none
  | some lines =>
    let scLine : Int := digitsToNat lineDigits
    let scCol : Int := digitsToNat colDigits
    if 1 ≤ scLine ∧ 1 ≤ scCol then
      resolveScriptRange runLine ⟨scLine, scCol⟩ lines
    else none

/-- The body of the `errors.map` in `toDiagnostics`: convert one
actionlint error to a diagnostic, rewriting message / code / range for
recognized shellcheck and pyflakes messages. -/
def convertError (overrides : List (String × String)) (docLines : Option (List String))
    (err : ActionlintError) : Diagnostic :=
  let line : Int := max 0 (err.line - 1)
  let rmc : Range × String × String :=
    if err.kind = "shellcheck" then
      match execShellcheck err.message with
      | some g =>
        let code := "shellcheck:" ++ g.code
        let message := if g.desc ≠ "" then g.desc else err.message
        let range := (scriptRangeFor docLines line g.lineDigits g.colDigits).getD (defaultRange err)
        (range, message, code)
      | none => (defaultRange err, err.message, err.kind)
    else if err.kind = "pyflakes" then
      match execPyflakes err.message with
      | some g =>
        let message := if g.desc ≠ "" then g.desc else err.message
        let range := (scriptRangeFor docLines line g.lineDigits g.colDigits).getD (defaultRange err)
        (range, message, err.kind)
      | none => (defaultRange err, err.message, err.kind)
    else (defaultRange err, err.message, err.kind)
  { range := rmc.1
    message := rmc.2.1
    severity := toSeverity err.kind err.message overrides
    source := "actionlint"
    code := rmc.2.2 }

/-- Document text split into lines, computed once (the cached
`documentText.split("\n")` inside `toDiagnostics`). -/
def linesOf : Option String → Option (List String)
  | none => none
  | some t => some (splitLines t)

/-- `toDiagnostics` from `src/diagnostics.ts`. -/
def toDiagnostics (errors : List ActionlintError) (overrides : List (String × String))
    (documentText : Option String) : List Diagnostic :=
  errors.map (convertError overrides (linesOf documentText))

/-- Extension configuration (`ActionlintConfig` in `src/types.ts`). -/
structure ActionlintConfig where
  enable : Bool
  executable : String
  runTrigger : String
  debounceDelay : Int
  ignoreErrors : List String
  shellcheckExecutable : String
  pyflakesExecutable : String
  additionalArgs : List String
  logLevel : String
  ruleSeverities : List (String × String)
deriving Repr, DecidableEq

/-- Result of running actionlint (`RunResult` in `src/runner.ts`).  Note
this record has no warning-style variant: the only classifications are
the error list and an optional `executionError`. -/
structure RunResult where
  errors : List ActionlintError
  executionError : Option String := none
  command : Option String := none
  args : Option (List String) := none
  exitCode : Option Int := none
  stderr : Option String := none
deriving Repr, DecidableEq

/-- A Node.js `error.code`, which is either a string error code
(`ENOENT`, `EACCES`, ...) or a numeric exit code. -/
inductive NodeCode where
  | str (s : String)
  | num (n : Int)
deriving Repr, DecidableEq

/-- The error object Node.js `execFile` passes to its callback. -/
structure ExecFileError where
  code : Option NodeCode
  killed : Bool
  signal : Option String
  message : String
deriving Repr, DecidableEq

/-- Outcome of `JSON.parse` on the trimmed standard output, as far as the
runner inspects it: a throw (`none`), an array (already cast, unchecked,
to `ActionlintError[]`), or any other JSON value. -/
inductive ParsedJson where
  | arr (elems : List ActionlintError)
  | nonArray
deriving Repr, DecidableEq

/-- `filePath.replace(/\\/g, "/")` in `runActionlint`. -/
def normalizeSlashes (s : String) : String :=
  ⟨s.data.map (fun c => if c = '\\' then '/' else c)⟩

/-- The argument list built by `runActionlint` (lines 52-69 of
`src/runner.ts`): format and stdin-filename flags, ignore patterns,
helper-tool paths when configured, the user's extra arguments only when
trusted, and the terminal `-`. -/
def buildArgs (filePath : String) (config : ActionlintConfig) (isTrusted : Bool) : List String :=
  ["-format", "\x7b\x7bjson .\x7d\x7d", "-stdin-filename", normalizeSlashes filePath]
    ++ config.ignoreErrors.flatMap (fun p => ["-ignore", p])
    ++ (if config.shellcheckExecutable ≠ "" then ["-shellcheck", config.shellcheckExecutable] else [])
    ++ (if config.pyflakesExecutable ≠ "" then ["-pyflakes", config.pyflakesExecutable] else [])
    ++ (if isTrusted then config.additionalArgs else [])
    ++ ["-"]

/-- The `done` helper of `runActionlint`: attach command and args to a
result, plus the optional exit code and stderr extras. -/
def doneWith (config : ActionlintConfig) (args : List String) (base : RunResult)
    (exitCode : Option Int) (stderr : Option String) : RunResult :=
  { base with
    command := some config.executable
    args := some args
    exitCode := exitCode
    stderr := stderr }

/-- The `execFile` callback of `runActionlint` (lines 93-196 of
`src/runner.ts`): cancellation check, then the error taxonomy (ENOENT,
killed, other string codes, exit code at least 2), then JSON handling of
the standard output.  `parseJson` stands for `JSON.parse`. -/
def runCallback (config : ActionlintConfig) (args : List String) (aborted : Bool)
    (error : Option ExecFileError) (stdout stderr : String)
    (parseJson : String → Option ParsedJson) : RunResult :=
  if aborted then { errors := [] }
  else
    let isEnoent :=
      match error with
      | some e => e.code = some (NodeCode.str "ENOENT")
      | none => false
    if isEnoent = true then
      doneWith config args
        { errors := []
          executionError := some ("actionlint binary not found at \"" ++ config.executable
            ++ "\". Install it (https://github.com/rhysd/actionlint) "
            ++ "or set actionlint.executable in settings.") }
        none (some stderr)
    else
      let isKilled :=
        match error with
        | some e => e.killed
        | none => false
      if isKilled = true then
        let sigSuffix :=
          match error with
          | some e =>
            match e.signal with
            | some sg => " (" ++ sg ++ ")"
            | none => ""
          | none => ""
        doneWith config args
          { errors := []
            executionError := some ("actionlint process was killed" ++ sigSuffix) }
          none (some stderr)
      else
        let strCode :=
          match error with
          | some e =>
            match e.code with
            | some (NodeCode.str s) => some (s, e.message)
            | _ => none
          | none => none
        match strCode with
        | some sc =>
          doneWith config args
            { errors := []
              executionError := some ("actionlint execution failed (" ++ sc.1 ++ "): "
                ++ (if sc.2 = "" then "unknown error" else sc.2)) }
            none (some stderr)
        | none =>
          let exitCode : Int :=
            match error with
            | some e =>
              match e.code with
              | some (NodeCode.num n) => n
              | _ => 0
            | none => 0
          if 2 ≤ exitCode then
            doneWith config args
              { errors := []
                executionError := some ("actionlint exited with code " ++ toString exitCode
                  ++ ": "
                  ++ (if stderr ≠ "" then stderr
                      else if stdout ≠ "" then stdout else "unknown error")) }
              (some exitCode) (some stderr)
          else
            let output := jsTrim stdout
            if output = "" ∨ output = "null" ∨ output = "[]" then
              doneWith config args { errors := [] } (some exitCode) (some stderr)
            else
              match parseJson output with
              | some (ParsedJson.arr xs) =>
                doneWith config args { errors := xs } (some exitCode) (some stderr)
              | some ParsedJson.nonArray =>
                doneWith config args
                  { errors := []
                    executionError := some "actionlint returned unexpected output format" }
                  (some exitCode) (some stderr)
              | none =>
                doneWith config args
                  { errors := []
                    executionError := some ("Failed to parse actionlint output: " ++ stdout) }
                  (some exitCode) (some stderr)

/-- `runActionlint` from `src/runner.ts`, as a function of the
observable interactions: whether the cancellation token was already
signaled before the spawn, and what the `execFile` callback received. -/
def runActionlint (filePath : String) (config : ActionlintConfig) (isTrusted : Bool)
    (abortedBeforeSpawn abortedAtCallback : Bool) (error : Option ExecFileError)
    (stdout stderr : String) (parseJson : String → Option ParsedJson) : RunResult :=
  if abortedBeforeSpawn then { errors := [] }
  else
    runCallback config (buildArgs filePath config isTrusted) abortedAtCallback
      error stdout stderr parseJson

/-- The per-scope values VS Code's `WorkspaceConfiguration.inspect`
reports for one setting key. -/
structure Scopes (α : Type) where
  defaultValue : Option α := none
  globalValue : Option α := none
  workspaceValue : Option α := none
  workspaceFolderValue : Option α := none
  defaultLanguageValue : Option α := none
  globalLanguageValue : Option α := none
  workspaceLanguageValue : Option α := none
  workspaceFolderLanguageValue : Option α := none
deriving Repr, DecidableEq

/-- VS Code's effective value for `cfg.get(key, fallback)`: the most
specific scope wins, language-specific values over their plain peers. -/
def cfgGet {α : Type} (s : Scopes α) (fallback : α) : α :=
  match s.workspaceFolderLanguageValue with
  | some v => v
  | none =>
    match s.workspaceLanguageValue with
    | some v => v
    | none =>
      match s.globalLanguageValue with
      | some v => v
      | none =>
        match s.defaultLanguageValue with
        | some v => v
        | none =>
          match s.workspaceFolderValue with
          | some v => v
          | none =>
            match s.workspaceValue with
            | some v => v
            | none =>
              match s.globalValue with
              | some v => v
              | none =>
                match s.defaultValue with
                | some v => v
                | none => fallback

/-- `getTrustedScopeValue` from `src/config.ts`: resolve from trusted
scopes only (user/default), ignoring all workspace-level values. -/
def getTrustedScopeValue {α : Type} (s : Scopes α) (fallback : α) : α :=
  match s.globalLanguageValue with
  | some v => v
  | none =>
    match s.globalValue with
    | some v => v
    | none =>
      match s.defaultLanguageValue with
      | some v => v
      | none =>
        match s.defaultValue with
        | some v => v
        | none => fallback

/-- `getRestrictedValue` from `src/config.ts`. -/
def getRestrictedValue {α : Type} (s : Scopes α) (fallback : α) (isTrusted : Bool) : α :=
  if isTrusted then cfgGet s fallback else getTrustedScopeValue s fallback

/-- The inspection state of the `actionlint.*` settings, one `Scopes`
record per key read by `getConfig`. -/
structure WorkspaceSettings where
  enable : Scopes Bool
  executable : Scopes String
  runTrigger : Scopes String
  debounceDelay : Scopes Int
  ignoreErrors : Scopes (List String)
  shellcheckExecutable : Scopes String
  pyflakesExecutable : Scopes String
  additionalArgs : Scopes (List String)
  logLevel : Scopes String
  ruleSeverities : Scopes (List (String × String))
deriving Repr

/-- `getConfig` from `src/config.ts` (lines 256-283 of
`src/extension.ts` in the snapshot): executable and helper-tool paths go
through `getRestrictedValue`, `additionalArgs` is dropped when
untrusted, everything else reads the merged value. -/
def getConfig (s : WorkspaceSettings) (isTrusted : Bool) : ActionlintConfig :=
  { enable := cfgGet s.enable true
    executable := getRestrictedValue s.executable "actionlint" isTrusted
    runTrigger := cfgGet s.runTrigger "onType"
    debounceDelay := cfgGet s.debounceDelay 300
    ignoreErrors := cfgGet s.ignoreErrors []
    shellcheckExecutable := getRestrictedValue s.shellcheckExecutable "" isTrusted
    pyflakesExecutable := getRestrictedValue s.pyflakesExecutable "" isTrusted
    additionalArgs := if isTrusted then cfgGet s.additionalArgs [] else []
    logLevel := cfgGet s.logLevel "off"
    ruleSeverities := cfgGet s.ruleSeverities [] }

/-- Replace the four workspace-level values of one setting's scopes,
leaving the trusted (user/default) scopes untouched. -/
def setWorkspaceScopes {α : Type} (s : Scopes α) (w wf wl wfl : Option α) : Scopes α :=
  { s with
    workspaceValue := w
    workspaceFolderValue := wf
    workspaceLanguageValue := wl
    workspaceFolderLanguageValue := wfl }

/-- Arbitrarily rewrite the workspace-scope configuration of the four
restricted settings (executable, helper-tool paths, extra arguments). -/
def setRestrictedWorkspace (s : WorkspaceSettings)
    (we wfe wle wfle : Option String) (ws wfs wls wfls : Option String)
    (wp wfp wlp wflp : Option String) (wa wfa wla wfla : Option (List String)) :
    WorkspaceSettings :=
  { s with
    executable := setWorkspaceScopes s.executable we wfe wle wfle
    shellcheckExecutable := setWorkspaceScopes s.shellcheckExecutable ws wfs wls wfls
    pyflakesExecutable := setWorkspaceScopes s.pyflakesExecutable wp wfp wlp wflp
    additionalArgs := setWorkspaceScopes s.additionalArgs wa wfa wla wfla }

/-- The `-ignore` flag pairs contributed to the invocation by the
configured ignore patterns. -/
def ignoreFlags (config : ActionlintConfig) : List String :=
  config.ignoreErrors.flatMap (fun p => ["-ignore", p])

/-- The run result consumed by the authoritative linter
(`src/linter.ts`), which extends `RunResult` with the `warning`
classification produced by the current runner. -/
structure RunResultW where
  errors : List ActionlintError
  executionError : Option String := none
  warning : Option String := none
  exitCode : Option Int := none
  stderr : Option String := none
deriving Repr, DecidableEq

/-- The linter's persistent global flags `_notInstalled` and
`_unexpectedOutput`. -/
structure LinterState where
  notInstalled : Bool
  unexpectedOutput : Bool
deriving Repr, DecidableEq

/-- Status-bar states the linter can request while handling a result. -/
inductive StatusBarState where
  | notInstalled
  | unexpectedOutput
  | idle
  | errorCount (n : Nat)
deriving Repr, DecidableEq

/-- Observable side effects of one pass through the result handling of
`lintDocument`. -/
structure HandleEffects where
  diagnosticsSet : Option (List Diagnostic)
  warningNotified : Bool
  errorNotified : Bool
  statusBar : Option StatusBarState
deriving Repr, DecidableEq

/-- The result handling of `lintDocument` (lines 532-617 of
`src/linter.ts`), from the point where a non-stale result is in hand:
the `executionError` branch with its not-found suppression, the
`warning` branch, and the success path.  Mutations of the two global
flags are modelled by explicit state passing in source order. -/
def handleResult (st : LinterState) (isActive : Bool) (r : RunResultW) :
    LinterState × HandleEffects :=
  match r.executionError with
  | some e =>
    let isNotFound := jsIncludes e "not found"
    let bar : Option StatusBarState :=
      if isNotFound then some .notInstalled
      else if isActive then some .idle
      else none
    let notify := !isNotFound || !st.notInstalled
    let st1 := if isNotFound then { st with notInstalled := true } else st
    (st1,
     { diagnosticsSet := none
       warningNotified := false
       errorNotified := notify
       statusBar := bar })
  | none =>
    match r.warning with
    | some _w =>
      let st1 : LinterState := { notInstalled := false, unexpectedOutput := true }
      if !st1.unexpectedOutput then
        ({ st1 with unexpectedOutput := true },
         { diagnosticsSet := some []
           warningNotified := true
           errorNotified := false
           statusBar := some .unexpectedOutput })
      else
        (st1,
         { diagnosticsSet := some []
           warningNotified := false
           errorNotified := false
           statusBar := some .unexpectedOutput })
    | none =>
      let wasGlobalWarning := st.notInstalled || st.unexpectedOutput
      let st1 : LinterState := { notInstalled := false, unexpectedOutput := false }
      let diags := toDiagnostics r.errors [] none
      let bar : Option StatusBarState :=
        if isActive then
          if 0 < diags.length then some (.errorCount diags.length) else some .idle
        else if wasGlobalWarning then some .idle
        else none
      (st1,
       { diagnosticsSet := some diags
         warningNotified := false
         errorNotified := false
         statusBar := bar })

/-- An event on one document's `CancellableTask` slot: run `k` starts
(`run()` is entered, a fresh entry object is installed as `current`), or
run `k`'s wrapped promise completes (the `await fn` returns and the
staleness check runs).  Entry objects are identified by the run index,
which is enough because every `run()` allocates a fresh entry. -/
inductive SlotEv where
  | start (k : Nat)
  | fin (k : Nat)
deriving Repr, DecidableEq

/-- One step of the slot (`CancellableTask.run`): a start installs the
new entry as `current`; a completion compares `current` against the
run's own entry by identity — if they agree the slot is cleared and the
value (here: the run index) is returned, otherwise the slot is left
alone and the run resolves to the stale sentinel `undefined` (`none`).
The second component lists the value this event resolves, if any. -/
def slotStep (cur : Option Nat) : SlotEv → Option Nat × List (Nat × Option Nat)
  | .start k => (some k, [])
  | .fin k => if cur = some k then (none, [(k, some k)]) else (cur, [(k, none)])

/-- Run a sequence of slot events, collecting for each completed run the
value its `run()` call resolved to (`some k` when honored, `none` for
the stale sentinel). -/
def slotRun (cur : Option Nat) : List SlotEv → List (Nat × Option Nat)
  | [] => []
  | e :: t =>
    let s := slotStep cur e
    s.2 ++ slotRun s.1 t

/-- Well-formed event interleavings for `N` overlapping runs started in
order `1..N` on one slot: `m` runs have started so far and `done` lists
the runs already completed.  Starts occur in increasing order; each run
completes at most once, only after it started, and — overlap — a run
other than the last completes only after its successor has started.
Completion order is otherwise arbitrary, and runs may never complete. -/
inductive SlotWF (N : Nat) : Nat → List Nat → List SlotEv → Prop where
  | nil (m : Nat) (done : List Nat) : m = N → SlotWF N m done []
  | start (m : Nat) (done : List Nat) (t : List SlotEv) :
      m < N → SlotWF N (m + 1) done t → SlotWF N m done (SlotEv.start (m + 1) :: t)
  | fin (m : Nat) (done : List Nat) (t : List SlotEv) (k : Nat) :
      1 ≤ k → k ∉ done → (k < m ∨ (k = N ∧ m = N)) →
      SlotWF N m (k :: done) t → SlotWF N m done (SlotEv.fin k :: t)

/-- The slot occupant determined by the number of started runs and the
set of completed runs, under the well-formedness discipline. -/
def curInv (N m : Nat) (done : List Nat) : Option Nat :=
  if N ∈ done then none else if m = 0 then none else some m

theorem slotRunSpec (N : Nat) {m : Nat} {done : List Nat} {t : List SlotEv}
    (h : SlotWF N m done t) :
    m ≤ N → (N ∈ done → m = N) →
    ∀ p ∈ slotRun (curInv N m done) t, p.2 = if p.1 = N then some p.1 else none := by
  induction h with
  | nil m done hm =>
    intro _ _ p hp
    simp [slotRun] at hp
  | start m done t hlt hwf ih =>
    intro hm hd p hp
    have hN : N ∉ done := fun hin => absurd (hd hin) (Nat.ne_of_lt hlt)
    simp only [slotRun, slotStep, List.nil_append] at hp
    have hcur : curInv N (m + 1) done = some (m + 1) := by
      simp [curInv, hN]
    exact ih (by omega) (fun hin => absurd hin hN) p (by rwa [hcur])
  | fin m done t k h1 hnotin hcase hwf ih =>
    intro hm hd p hp
    rcases hcase with hk | ⟨hkN, hmN⟩
    · have hkn : k ≠ N := by omega
      have hcur : curInv N m done ≠ some k := by
        unfold curInv
        split
        · simp
        · split
          · simp
          · simp
            omega
      simp only [slotRun, slotStep, if_neg hcur, List.cons_append, List.nil_append,
        List.mem_cons] at hp
      rcases hp with hp | hp
      · subst hp
        simp [hkn]
      · have hceq : curInv N m (k :: done) = curInv N m done := by
          unfold curInv
          simp [List.mem_cons, Ne.symm hkn]
        have hd2 : N ∈ k :: done → m = N := by
          intro hin
          rcases List.mem_cons.mp hin with h2 | h2
          · exact absurd h2.symm hkn
          · exact hd h2
        exact ih hm hd2 p (by rwa [hceq])
    · have hNdone : N ∉ done := hkN ▸ hnotin
      have hm0 : m ≠ 0 := by omega
      have hcur : curInv N m done = some k := by
        simp [curInv, hNdone, hm0]
        omega
      simp only [slotRun, hcur, slotStep, eq_self_iff_true, if_true, List.cons_append,
        List.nil_append, List.mem_cons] at hp
      rcases hp with hp | hp
      · subst hp
        simp [hkN]
      · have hmem : N ∈ k :: done := List.mem_cons.mpr (Or.inl hkN.symm)
        have hceq : curInv N m (k :: done) = none := by
          simp [curInv, hmem]
        exact ih hm (fun _ => hmN) p (by rwa [hceq])

/-- C1: for any well-formed interleaving of N overlapping `run()` calls
started in order 1..N on one `CancellableTask` slot, whatever the
completion order, a completing run is honored (resolves with its value)
exactly when it is run N; every earlier run resolves to the stale
sentinel `undefined`.  Staleness in `slotStep` is decided by comparing
the slot's current entry with the run's own entry, mirroring the
reference-identity check `this.current !== entry`, not a counter. -/
theorem cancellableTask_staleness (N : Nat) (t : List SlotEv) (h : SlotWF N 0 [] t) :
    ∀ p ∈ slotRun none t, p.2 = if p.1 = N then some p.1 else none := by
  intro p hp
  have h0 : curInv N 0 [] = none := by simp [curInv]
  exact slotRunSpec N h (Nat.zero_le N) (by simp) p (by rwa [h0])

/-- A concrete interleaving: runs 1 and 2 start (overlapping), then
complete in start order. -/
def slotDemoTrace : List SlotEv :=
  [SlotEv.start 1, SlotEv.start 2, SlotEv.fin 1, SlotEv.fin 2]

/-- Witness for C1: in the demo trace, run 1 resolves to the stale
sentinel. -/
theorem cancellableTask_staleness_witness :
    ((1 : Nat), (none : Option Nat)).2
      = (if ((1 : Nat), (none : Option Nat)).1 = 2
          then some ((1 : Nat), (none : Option Nat)).1 else none) :=
  cancellableTask_staleness 2 slotDemoTrace
    (SlotWF.start 0 [] _ (by omega)
      (SlotWF.start 1 [] _ (by omega)
        (SlotWF.fin 2 [] _ 1 (by omega) (by simp) (Or.inl (by omega))
          (SlotWF.fin 2 [1] _ 2 (by omega) (by simp) (Or.inr ⟨rfl, rfl⟩)
            (SlotWF.nil 2 [2, 1] rfl)))))
    ((1 : Nat), (none : Option Nat)) (by decide)

theorem resolveScriptRange_startChar_lt {runLine : Int} {sp : ScriptPosition}
    {lines : List String} {r : Range} (h : resolveScriptRange runLine sp lines = some r) :
    r.startChar < r.endChar := by
  unfold resolveScriptRange at h
  dsimp only at h
  repeat' split at h
  all_goals
    first
      | exact Option.noConfusion h
      | (cases h
         dsimp only
         refine lt_of_lt_of_le ?_ (le_max_left _ _)
         omega)

theorem scriptRangeFor_some {d : Option (List String)} {rl : Int} {a b : String} {r : Range}
    (h : scriptRangeFor d rl a b = some r) :
    ∃ sp lines, resolveScriptRange rl sp lines = some r := by
  unfold scriptRangeFor at h
  split at h
  · exact Option.noConfusion h
  · dsimp only at h
    split at h
    · exact ⟨_, _, h⟩
    · exact Option.noConfusion h

theorem convertError_range (ov : List (String × String)) (dl : Option (List String))
    (err : ActionlintError) :
    (convertError ov dl err).range = defaultRange err
      ∨ ∃ runLine sp lines,
          resolveScriptRange runLine sp lines = some ((convertError ov dl err).range) := by
  unfold convertError
  dsimp only
  split
  · split
    · rename_i g _
      dsimp only
      cases hsr : scriptRangeFor dl (max 0 (err.line - 1)) g.lineDigits g.colDigits with
      | none => left; simp [hsr]
      | some r =>
        right
        obtain ⟨sp, lines, hres⟩ := scriptRangeFor_some hsr
        exact ⟨_, sp, lines, by simp only [hsr, Option.getD_some]; exact hres⟩
    · left; rfl
  · split
    · split
      · rename_i g _
        dsimp only
        cases hsr : scriptRangeFor dl (max 0 (err.line - 1)) g.lineDigits g.colDigits with
        | none => left; simp [hsr]
        | some r =>
          right
          obtain ⟨sp, lines, hres⟩ := scriptRangeFor_some hsr
          exact ⟨_, sp, lines, by simp only [hsr, Option.getD_some]; exact hres⟩
      · left; rfl
    · left; rfl

/-- C3: every diagnostic produced by `toDiagnostics` — including those
whose range was rewritten by embedded-script position resolution — has
its 0-based exclusive end column strictly greater than its 0-based start
column, for every input finding (end columns of 0, negative, or at most
the start column included). -/
theorem toDiagnostics_range_nonempty (errors : List ActionlintError)
    (ov : List (String × String)) (dt : Option String) (d : Diagnostic)
    (hd : d ∈ toDiagnostics errors ov dt) : d.range.startChar < d.range.endChar := by
  unfold toDiagnostics at hd
  obtain ⟨err, hmem, rfl⟩ := List.mem_map.mp hd
  rcases convertError_range ov (linesOf dt) err with h | ⟨rl, sp, lines, h⟩
  · rw [h]
    unfold defaultRange
    dsimp only
    have h1 := le_max_left (max 0 (err.column - 1) + 1)
      (if err.column < err.end_column then err.end_column else max 0 (err.column - 1) + 1)
    omega
  · exact resolveScriptRange_startChar_lt h

/-- A workflow document with a block-scalar `run:` step, used as a
concrete document for script-position resolution. -/
def wfDocText : String := "jobs:\n  run: |\n    echo $x"

/-- A shellcheck finding pointing at the `run:` line of `wfDocText`. -/
def scErr : ActionlintError :=
  ⟨"SC2086:error:1:5: Double quote to prevent globbing", "f", 2, 9, 0, "shellcheck", ""⟩

/-- Witness for C3: the resolved shellcheck diagnostic on `wfDocText`
has a non-empty range. -/
theorem toDiagnostics_range_nonempty_witness :
    (convertError [] (linesOf (some wfDocText)) scErr).range.startChar
      < (convertError [] (linesOf (some wfDocText)) scErr).range.endChar :=
  toDiagnostics_range_nonempty [scErr] [] (some wfDocText) _ (by simp [toDiagnostics])

theorem convertError_range_noText (ov : List (String × String)) (err : ActionlintError) :
    (convertError ov none err).range = defaultRange err := by
  unfold convertError
  dsimp only
  split
  · split
    · rfl
    · rfl
  · split
    · split
      · rfl
      · rfl
    · rfl

/-- A finding with a negative start column whose end column exceeds it
but not the clamped 0-based start. -/
def c5Err : ActionlintError := ⟨"msg", "f", 3, -5, -2, "expression", "s"⟩

/-- Counterexample to C5 as stated: for `c5Err` the 1-based end column
(-2) is strictly greater than the 1-based start column (-5), yet the
produced exclusive end column is the fallback 1, not the end column. -/
theorem toDiagnostics_endColumn_counterexample :
    c5Err.column < c5Err.end_column
      ∧ (toDiagnostics [c5Err] [] none).map (fun d => d.range.endChar) = [1]
      ∧ (1 : Int) ≠ c5Err.end_column := by
  decide

/-- C5 (amended): with no document text supplied, `toDiagnostics` maps
every finding to 0-based line `max 0 (line-1)` and start column
`max 0 (column-1)`; the 1-based inclusive `end_column` is used directly
as the 0-based exclusive end column exactly when it is strictly greater
than both the 1-based start column and the clamped 0-based start column,
and otherwise the end column falls back to start+1.  In particular a
finding at 1-based (line=10, column=5, end_column=10) maps to 0-based
line 9, start column 4, exclusive end column 10. -/
theorem toDiagnostics_coordinate_mapping :
    (∀ (err : ActionlintError) (ov : List (String × String)),
      (toDiagnostics [err] ov none).map
          (fun d => (d.range.startLine, d.range.startChar, d.range.endChar))
        = [(max 0 (err.line - 1), max 0 (err.column - 1),
            if err.column < err.end_column ∧ max 0 (err.column - 1) < err.end_column
            then err.end_column
            else max 0 (err.column - 1) + 1)])
    ∧ (toDiagnostics [⟨"m", "f", 10, 5, 10, "expression", "s"⟩] [] none).map
          (fun d => (d.range.startLine, d.range.startChar, d.range.endChar))
        = [(9, 4, 10)] := by
  constructor
  · intro err ov
    simp only [toDiagnostics, linesOf, List.map_cons, List.map_nil, List.cons.injEq, and_true]
    rw [convertError_range_noText ov err]
    unfold defaultRange
    dsimp only
    simp only [Prod.mk.injEq, true_and]
    simp only [Int.max_def]
    split_ifs <;> omega
  · decide

/-- C10: `toDiagnostics` returns exactly one diagnostic per input
finding, in input order: the output length equals the input length and
the i-th diagnostic is the conversion of the i-th finding, for every
input list (empty lists and unknown rule kinds included). -/
theorem toDiagnostics_one_per_finding (errors : List ActionlintError)
    (ov : List (String × String)) (dt : Option String) :
    (toDiagnostics errors ov dt).length = errors.length
      ∧ ∀ i : Nat,
          (toDiagnostics errors ov dt)[i]? = (errors[i]?).map (convertError ov (linesOf dt)) := by
  constructor
  · simp [toDiagnostics]
  · intro i
    simp [toDiagnostics]

theorem dropWhile_length_le (p : Char → Bool) (l : List Char) :
    (l.dropWhile p).length ≤ l.length := by
  induction l with
  | nil => simp
  | cons c t ih =>
    by_cases h : p c
    · simp only [List.dropWhile, h, List.length_cons]
      omega
    · simp [List.dropWhile, h]

theorem indentOf_nonneg (s : String) : 0 ≤ indentOf s := by
  unfold indentOf jsTrimStart
  have h := dropWhile_length_le jsIsWs s.data
  simp only
  omega

/-- C9 (amended): for a shellcheck finding, (1) a message matching the
embedded pattern with non-empty description gets the message replaced by
the description and the code set to `shellcheck:<SC-code>`; (2) under a
block-scalar `run:` statement, `resolveScriptRange` resolves to document
line `runLine+1+(scriptLine-1)` at column `indent+(scriptCol-1)` where
`indent` comes from the first non-blank body line; (3) a non-matching
message leaves position, message and code all unchanged; (4) an
unresolvable position (missing `run:` keyword, out-of-bounds line) keeps
only the original position — the rewritten message and code still
apply. -/
theorem shellcheck_message_handling :
    (∀ (err : ActionlintError) (ov : List (String × String)) (dt : Option String),
        err.kind = "shellcheck" → execShellcheck err.message = none →
        toDiagnostics [err] ov dt
          = [{ range := defaultRange err, message := err.message,
               severity := toSeverity err.kind err.message ov,
               source := "actionlint", code := err.kind }])
    ∧ (∀ (err : ActionlintError) (ov : List (String × String)) (dt : Option String)
          (g : ShellcheckGroups),
        err.kind = "shellcheck" → execShellcheck err.message = some g → g.desc ≠ "" →
        (toDiagnostics [err] ov dt).map (fun d => (d.message, d.code))
          = [(g.desc, "shellcheck:" ++ g.code)])
    ∧ (∀ (lines : List String) (runLine : Int) (sp : ScriptPosition) (runIdx refIdx : Nat),
        0 ≤ runLine → runLine < (lines.length : Int) →
        jsIndexOf (lines.getD runLine.toNat "") "run:" = some runIdx →
        ((jsTrimStart ⟨(lines.getD runLine.toNat "").data.drop (runIdx + 4)⟩).data.head?
            = some '|'
          ∨ (jsTrimStart ⟨(lines.getD runLine.toNat "").data.drop (runIdx + 4)⟩).data.head?
            = some '>') →
        firstNonBlankFrom lines (runLine.toNat + 1) = some refIdx →
        1 ≤ sp.line → 1 ≤ sp.col →
        runLine + 1 + (sp.line - 1) < (lines.length : Int) →
        resolveScriptRange runLine sp lines
          = some ⟨runLine + 1 + (sp.line - 1),
                  indentOf (lines.getD refIdx "") + (sp.col - 1),
                  runLine + 1 + (sp.line - 1),
                  max (indentOf (lines.getD refIdx "") + (sp.col - 1) + 1)
                    ((jsTrimEnd (lines.getD (runLine + 1 + (sp.line - 1)).toNat "")).data.length : Int)⟩)
    ∧ (∀ (err : ActionlintError) (ov : List (String × String)) (txt : String)
          (g : ShellcheckGroups),
        err.kind = "shellcheck" → execShellcheck err.message = some g →
        resolveScriptRange (max 0 (err.line - 1))
            ⟨(digitsToNat g.lineDigits : Int), (digitsToNat g.colDigits : Int)⟩
            (splitLines txt) = none →
        (toDiagnostics [err] ov (some txt)).map (fun d => d.range) = [defaultRange err]) := by
  refine ⟨?_, ?_, ?_, ?_⟩
  · intro err ov dt hk hexec
    simp [toDiagnostics, convertError, hk, hexec]
  · intro err ov dt g hk hexec hd
    simp [toDiagnostics, convertError, hk, hexec, hd]
  · intro lines runLine sp runIdx refIdx h0 h1 hidx hhead href hline hcol hdoc
    have hEq : ((runLine.toNat + 1 : Nat) : Int) = runLine + 1 := by omega
    have hind := indentOf_nonneg (lines.getD refIdx "")
    unfold resolveScriptRange
    rw [if_neg (by omega)]
    dsimp only
    rw [hidx]
    dsimp only
    have hne : ¬((jsTrimStart
        ⟨(lines.getD runLine.toNat "").data.drop (runIdx + 4)⟩).data.length = 0) := by
      intro hlen
      rw [List.length_eq_zero] at hlen
      rcases hhead with h | h <;> (rw [hlen] at h; exact Option.noConfusion h)
    rw [if_neg hne, if_pos hhead, href]
    dsimp only
    rw [if_neg (by omega)]
    rw [if_neg (by omega)]
    rw [hEq]
  · intro err ov txt g hk hexec hres
    simp only [toDiagnostics, List.map_cons, List.map_nil, List.cons.injEq, and_true]
    unfold convertError
    dsimp only
    rw [if_pos hk, hexec]
    dsimp only
    simp only [linesOf]
    unfold scriptRangeFor
    dsimp only
    split
    · rw [hres]
      rfl
    · rfl

/-- A shellcheck finding whose message does not match the embedded
pattern. -/
def scErrNoMatch : ActionlintError := ⟨"hello world", "f", 1, 1, 0, "shellcheck", ""⟩

/-- A document whose finding line has no `run:` keyword, so script
position resolution fails. -/
def badDocText : String := "steps here\nno keyword"

/-- A shellcheck finding whose message matches the pattern with an empty
description. -/
def scErrEmptyDesc : ActionlintError :=
  ⟨"SC2086:error:1:5:", "f", 1, 1, 0, "shellcheck", ""⟩

/-- Counterexample to C9 as stated: (a) with `badDocText` the position is
unresolvable (no `run:` on the statement line) and the original position
is indeed kept, but the message and code are NOT left unchanged — the
prefix is still stripped and the composite code still applied; (b) for a
matching message with an empty description the message does NOT become
the (empty) description — it stays the full original message. -/
theorem shellcheck_unresolvable_counterexample :
    resolveScriptRange (max 0 (scErr.line - 1)) ⟨1, 5⟩ (splitLines badDocText) = none
      ∧ (toDiagnostics [scErr] [] (some badDocText)).map (fun d => (d.message, d.code))
          = [("Double quote to prevent globbing", "shellcheck:SC2086")]
      ∧ "Double quote to prevent globbing" ≠ scErr.message
      ∧ "shellcheck:SC2086" ≠ scErr.kind
      ∧ execShellcheck scErrEmptyDesc.message = some ⟨"SC2086", "error", "1", "5", ""⟩
      ∧ (toDiagnostics [scErrEmptyDesc] [] none).map (fun d => d.message)
          = ["SC2086:error:1:5:"]
      ∧ "SC2086:error:1:5:" ≠ "" := by
  decide

/-- Witness for C9: each conjunct of the amended claim evaluated at a
concrete finding and document. -/
theorem shellcheck_message_handling_witness :
    (toDiagnostics [scErrNoMatch] [] none
       = [{ range := defaultRange scErrNoMatch, message := scErrNoMatch.message,
            severity := toSeverity scErrNoMatch.kind scErrNoMatch.message [],
            source := "actionlint", code := scErrNoMatch.kind }])
    ∧ ((toDiagnostics [scErr] [] (some badDocText)).map (fun d => (d.message, d.code))
       = [("Double quote to prevent globbing", "shellcheck:SC2086")])
    ∧ (resolveScriptRange 1 ⟨1, 5⟩ ["jobs:", "  run: |", "    echo $x"]
       = some ⟨2, 8, 2, 11⟩)
    ∧ ((toDiagnostics [scErr] [] (some badDocText)).map (fun d => d.range)
       = [defaultRange scErr]) := by
  refine ⟨?_, ?_, ?_, ?_⟩
  · exact shellcheck_message_handling.1 scErrNoMatch [] none rfl (by decide)
  · have h := shellcheck_message_handling.2.1 scErr [] (some badDocText)
      ⟨"SC2086", "error", "1", "5", "Double quote to prevent globbing"⟩
      rfl (by decide) (by decide)
    rw [h]
    decide
  · have h := shellcheck_message_handling.2.2.1 ["jobs:", "  run: |", "    echo $x"]
      1 ⟨1, 5⟩ 2 2 (by omega) (by decide) (by decide) (by decide) (by decide)
      (by decide) (by decide) (by decide)
    rw [h]
    decide
  · exact shellcheck_message_handling.2.2.2 scErr [] badDocText
      ⟨"SC2086", "error", "1", "5", "Double quote to prevent globbing"⟩
      rfl (by decide) (by decide)

/-- A default configuration, as produced by `getConfig` with no settings
configured. -/
def cfgDemo : ActionlintConfig :=
  ⟨true, "actionlint", "onType", 300, [], "", "", [], "off", []⟩

/-- C6: if the cancellation token is already signaled before the
subprocess would be spawned, or becomes signaled by the time the
subprocess callback runs, `runActionlint` resolves with the empty
result — no `executionError`, no findings — regardless of any process
error (kill details included) the callback may carry. -/
theorem runActionlint_cancellation :
    ∀ (fp : String) (config : ActionlintConfig) (isTrusted : Bool)
      (abortedBefore abortedAtCb : Bool) (error : Option ExecFileError)
      (stdout stderr : String) (parse : String → Option ParsedJson),
      abortedBefore = true ∨ abortedAtCb = true →
      runActionlint fp config isTrusted abortedBefore abortedAtCb error stdout stderr parse
        = { errors := [], executionError := none, command := none, args := none,
            exitCode := none, stderr := none } := by
  intro fp config isTrusted ab acb error stdout stderr parse h
  rcases h with h | h
  · subst h
    rfl
  · subst h
    unfold runActionlint
    split
    · rfl
    · rfl

/-- Witness for C6: a run whose process was killed (with a recorded
signal) after the token was signaled still resolves to the empty,
non-error result. -/
theorem runActionlint_cancellation_witness :
    runActionlint "a.yml" cfgDemo true false true
        (some ⟨none, true, some "SIGTERM", "killed"⟩) "boom" "err" (fun _ => none)
      = { errors := [], executionError := none, command := none, args := none,
          exitCode := none, stderr := none } :=
  runActionlint_cancellation "a.yml" cfgDemo true false true
    (some ⟨none, true, some "SIGTERM", "killed"⟩) "boom" "err" (fun _ => none) (Or.inr rfl)

/-- C2 (evaluating the code at the failing inputs): on exit code 1 with
empty, `null`, or `[]` standard output, the runner in `src/runner.ts`
resolves with the plain empty result — no `executionError` and, since
`RunResult` has no warning field at all, nothing distinguishing it from
a clean zero-finding success — where the spec and the repository's own
`runner.test.ts` require a Warning result. -/
theorem runner_empty_payload_not_warning :
    (runActionlint "a.yml" cfgDemo true false false
        (some ⟨some (NodeCode.num 1), false, none, "Command failed"⟩) "[]" "" (fun _ => none))
      = { errors := [], executionError := none, command := some "actionlint",
          args := some (buildArgs "a.yml" cfgDemo true), exitCode := some 1, stderr := some "" }
    ∧ (runActionlint "a.yml" cfgDemo true false false
        (some ⟨some (NodeCode.num 1), false, none, "Command failed"⟩) "" "" (fun _ => none))
      = { errors := [], executionError := none, command := some "actionlint",
          args := some (buildArgs "a.yml" cfgDemo true), exitCode := some 1, stderr := some "" }
    ∧ (runActionlint "a.yml" cfgDemo true false false
        (some ⟨some (NodeCode.num 1), false, none, "Command failed"⟩) "null" "" (fun _ => none))
      = { errors := [], executionError := none, command := some "actionlint",
          args := some (buildArgs "a.yml" cfgDemo true), exitCode := some 1, stderr := some "" } := by
  refine ⟨rfl, rfl, rfl⟩

/-- A string of `n` copies of `x` — non-JSON standard output of
unbounded size. -/
def mkX (n : Nat) : String := ⟨List.replicate n 'x'⟩

theorem jsTrim_mkX (n : Nat) : jsTrim (mkX (n + 1)) = mkX (n + 1) := by
  have hx : jsIsWs 'x' = false := rfl
  have h1 : List.dropWhile jsIsWs (List.replicate (n + 1) 'x') = List.replicate (n + 1) 'x' := by
    simp [List.replicate_succ, List.dropWhile_cons, hx]
  unfold jsTrim jsTrimStart jsTrimEnd mkX
  dsimp only
  rw [h1, List.reverse_replicate, h1, List.reverse_replicate]

theorem mkX_not_special (n : Nat) :
    ¬(mkX (n + 1) = "" ∨ mkX (n + 1) = "null" ∨ mkX (n + 1) = "[]") := by
  intro h
  rcases h with h | h | h <;>
    · have hd := congrArg (fun s => s.data.head?) h
      simp [mkX, List.replicate_succ] at hd

/-- C8 (evaluating the code at the failing inputs): when standard output
fails to parse as JSON, the runner's error message embeds the raw output
whole, so the message length exceeds any bound `n` for an input of
length `n+1` — there is no truncation, contrary to the claim and to the
repository's own `runner.test.ts` (which requires a bounded, marked
truncation). -/
theorem runner_parse_error_unbounded :
    ∀ n : Nat,
      (runActionlint "a.yml" cfgDemo true false false none (mkX (n + 1)) ""
          (fun _ => none)).executionError
        = some ("Failed to parse actionlint output: " ++ mkX (n + 1))
      ∧ n < ("Failed to parse actionlint output: " ++ mkX (n + 1)).length := by
  intro n
  constructor
  · have hns := mkX_not_special n
    unfold runActionlint runCallback
    rw [if_neg (by simp), if_neg (by simp)]
    dsimp only
    rw [if_neg (by simp), if_neg (by simp), if_neg (by norm_num), if_neg (by rw [jsTrim_mkX]; exact hns)]
    rfl
  · have hlen : (mkX (n + 1)).length = n + 1 := by
      simp [mkX, String.length]
    rw [String.length_append, hlen]
    omega

/-- C4 (evaluating the code): handling a Warning result always sets the
Global Warning State to `unexpectedOutput` and clears the document's
diagnostics, but the user notification is NEVER shown — in particular
not on the first transition into the state — because `_unexpectedOutput`
is assigned `true` before the `if (!this._unexpectedOutput)` guard
reads it. -/
theorem warning_transition_never_notifies :
    ∀ (st : LinterState) (isActive : Bool) (w : String) (errs : List ActionlintError),
      (handleResult st isActive
          { errors := errs, executionError := none, warning := some w }).2.warningNotified = false
      ∧ (handleResult st isActive
          { errors := errs, executionError := none, warning := some w }).1
          = ⟨false, true⟩
      ∧ (handleResult st isActive
          { errors := errs, executionError := none, warning := some w }).2.diagnosticsSet
          = some []
      ∧ (handleResult st isActive
          { errors := errs, executionError := none, warning := some w }).2.statusBar
          = some StatusBarState.unexpectedOutput := by
  intro st isActive w errs
  exact ⟨rfl, rfl, rfl, rfl⟩

/-- C7: with the trust flag false, the entire effective configuration —
and hence the spawned command and its argument list — is unaffected by
any workspace-scope values of the restricted settings (executable,
shellcheck / pyflakes paths, extra CLI arguments); the extra arguments
are dropped (empty and, gated again in `buildArgs`, never appended); and
the ignore-pattern flags and rule-severity overrides are exactly those
of the trusted configuration.  Everything is a total function of the
settings: the restricted values are dropped silently, no error result
exists. -/
theorem untrusted_config_noninterference :
    ∀ (s : WorkspaceSettings)
      (we wfe wle wfle ws wfs wls wfls wp wfp wlp wflp : Option String)
      (wa wfa wla wfla : Option (List String)) (fp : String),
      getConfig (setRestrictedWorkspace s we wfe wle wfle ws wfs wls wfls
          wp wfp wlp wflp wa wfa wla wfla) false
        = getConfig s false
      ∧ (getConfig s false).additionalArgs = []
      ∧ buildArgs fp (getConfig s false) false
          = ["-format", "\x7b\x7bjson .\x7d\x7d", "-stdin-filename", normalizeSlashes fp]
            ++ ignoreFlags (getConfig s false)
            ++ (if (getConfig s false).shellcheckExecutable ≠ ""
                then ["-shellcheck", (getConfig s false).shellcheckExecutable] else [])
            ++ (if (getConfig s false).pyflakesExecutable ≠ ""
                then ["-pyflakes", (getConfig s false).pyflakesExecutable] else [])
            ++ ["-"]
      ∧ ignoreFlags (getConfig s false) = ignoreFlags (getConfig s true)
      ∧ (getConfig s false).ruleSeverities = (getConfig s true).ruleSeverities := by
  intro s we wfe wle wfle ws wfs wls wfls wp wfp wlp wflp wa wfa wla wfla fp
  refine ⟨rfl, rfl, ?_, rfl, rfl⟩
  simp [buildArgs, ignoreFlags]

end Actionlint
